import Mathlib

/-!
Verification development for the Gmail-to-S3 archiver Lambda
(`src/lambda_function.py`).

The pipeline is embedded shallowly:

* pure data (message summaries, message details, recursive payload parts,
  archive records, responses) becomes Lean structures/inductives;
* the effectful collaborators (the Gmail OAuth refresh, the paginated
  message listing, the per-message fetch and the S3 put) are modelled by
  an oracle record giving the outcome of each external call, and the
  handler additionally returns the trace of external calls it performed;
* Python exceptions become `Except`/`Option` results;
* `base64.urlsafe_b64decode(...).decode("utf-8")` is a library call, so it
  is modelled by an explicit parameter `decode : String -> Option String`
  (`none` = the decode raised, i.e. malformed base64 or invalid UTF-8);
* Python truthiness of the optional strings read from the event and the
  environment (`if not gmail_query`, `if not REFRESH_TOKEN`) is `truthy`.
-/

set_option autoImplicit false

namespace GmailArchiver

/-- Python truthiness of an optional string value: `None` and the empty
string are falsy, every other string is truthy. -/
def truthy : Option String → Bool
  | none => false
  | some s => !s.isEmpty

/-- A message summary as returned by the listing call: `{id, threadId}`
(the loop reads the id field of each summary). -/
structure MsgSummary where
  id : String
  threadId : String
  deriving DecidableEq

/-- One MIME part of a payload: `mimeType`, the optional `body.data` blob
(`bodyData = some d` models a data key present in the body object of the
part, holding `d`), and the recursive list of sub-parts (present in the
Gmail representation but never read by the scan in the handler). -/
inductive Part : Type where
  | mk : String → Option String → List Part → Part

/-- The `mimeType` field of a part. -/
def Part.mimeType : Part → String
  | .mk m _ _ => m

/-- The `body.data` blob of a part, when present. -/
def Part.bodyData : Part → Option String
  | .mk _ b _ => b

/-- The nested `parts` of a part (ignored by the scan in the handler). -/
def Part.subparts : Part → List Part
  | .mk _ _ s => s

/-- A message payload: `parts = some ps` models a parts key present in
the payload object, `bodyData = some d` models a body object present and
carrying a data key, and `headers` models the headers key. -/
structure Payload where
  parts : Option (List Part)
  bodyData : Option String
  headers : Option (List (String × String))

/-- The full message representation returned by
the get call of the messages API, requesting the full format; every
field the
handler reads with `.get(...)` is optional. -/
structure MessageDetail where
  id : Option String
  threadId : Option String
  labelIds : Option (List String)
  snippet : Option String
  historyId : Option String
  internalDate : Option String
  sizeEstimate : Option Nat
  payload : Option Payload

/-- The archive record `email_data_to_store` uploaded to S3 (its
`payload` sub-object holds the headers and the derived
`decoded_body_plain_or_html` field). -/
structure ArchiveRecord where
  id : Option String
  threadId : Option String
  labelIds : Option (List String)
  snippet : Option String
  historyId : Option String
  internalDate : Option String
  headers : Option (List (String × String))
  sizeEstimate : Option Nat
  decodedBody : String
  deriving DecidableEq

/-- Environment configuration read at module load:
`S3_BUCKET_NAME`, `GMAIL_USER_ID`, `REFRESH_TOKEN`, `CLIENT_ID`,
`CLIENT_SECRET` (the last three are optional environment variables). -/
structure Env where
  s3Bucket : String
  gmailUserId : String
  refreshToken : Option String
  clientId : Option String
  clientSecret : Option String

/-- The invocation event; the handler reads the gmail_query and
gmail_user_id_s3_folder keys with event.get, so both are optional. -/
structure Event where
  gmail_query : Option String
  gmail_user_id_s3_folder : Option String

/-- Outcomes of the external calls made during one invocation:
the credential refresh inside `get_gmail_service`, the (single, already
paginated) `list_messages` call, the per-id `get_message_detail` call,
and the per-key `s3_client.put_object` call. `Except.error e` models the
Python call raising an exception with message `e`. -/
structure Oracles where
  auth : Except String Unit
  listing : Except String (List MsgSummary)
  fetch : String → Except String MessageDetail
  put : String → Except String Unit

/-- One page of the Gmail list API: the optional `messages` key and the
optional `nextPageToken` continuation cursor. -/
structure ListResponse where
  messages : Option (List MsgSummary)
  nextPageToken : Option String
  deriving DecidableEq

/-- The pagination loop of `list_messages`: the current response plus the
script of responses the (mocked) API will return to further calls.  Each
iteration appends the messages of the page; a `nextPageToken` triggers one
further call carrying that cursor.  The returned pair is (accumulated
messages, cursor argument passed to each call issued); `none` models the
script running out while a cursor is still pending (the next call fails).
-/
def listPages : ListResponse → List ListResponse → List MsgSummary →
    List (Option String) → Option (List MsgSummary × List (Option String))
  | resp, rest, accMsgs, accCalls =>
    let accMsgs := accMsgs ++ resp.messages.getD []
    match resp.nextPageToken with
    | none => some (accMsgs, accCalls)
    | some tok =>
      match rest with
      | [] => none
      | r :: rs => listPages r rs accMsgs (accCalls ++ [some tok])

/-- Model of list_messages: issues the first search call
without a cursor (the head of the script), then follows `nextPageToken`
cursors until a response carries none, accumulating `messages` in page
order.  Returns the aggregated summaries together with the cursor argument
of each call issued (`none` for the first call). -/
def list_messages (script : List ListResponse) :
    Option (List MsgSummary × List (Option String)) :=
  match script with
  | [] => none
  | r :: rs => listPages r rs [] [none]

/-- The part scan inside `lambda_handler` (lines 187-193): walk the
top-level parts in order carrying the current `body_data` string; a
`text/plain` part with a data blob decodes and breaks immediately; a
`text/html` part with a data blob decodes only when `body_data` is still
falsy (empty); `none` models a decode exception aborting the message. -/
def scan_parts (decode : String → Option String) :
    List Part → String → Option String
  | [], acc => some acc
  | p :: rest, acc =>
    match p.bodyData with
    | some d =>
      if p.mimeType == "text/plain" then decode d
      else if p.mimeType == "text/html" && acc == "" then
        match decode d with
        | some s => scan_parts decode rest s
        | none => none
      else scan_parts decode rest acc
    | none => scan_parts decode rest acc

/-- The body-extraction block of `lambda_handler` (lines 183-195):
`body_data` starts as `""`; a payload with `parts` is scanned top-level
only; otherwise a directly carried `body.data` blob is decoded; `none`
models a decode exception (per-message failure). -/
def extract_body (decode : String → Option String)
    (payload : Option Payload) : Option String :=
  match payload with
  | none => some ""
  | some pl =>
    match pl.parts with
    | some parts => scan_parts decode parts ""
    | none =>
      match pl.bodyData with
      | some d => decode d
      | none => some ""

/-- The `email_data_to_store` record built by the handler, with the
extracted body stored under `decoded_body_plain_or_html`. -/
def email_data_to_store (d : MessageDetail) (body : String) : ArchiveRecord :=
  { id := d.id,
    threadId := d.threadId,
    labelIds := d.labelIds,
    snippet := d.snippet,
    historyId := d.historyId,
    internalDate := d.internalDate,
    headers := d.payload.bind (fun pl => pl.headers),
    sizeEstimate := d.sizeEstimate,
    decodedBody := body }

/-- The S3 object key used by `upload_to_s3`. -/
def file_key (folder msgId : String) : String :=
  "gmail/" ++ folder ++ "/message_" ++ msgId ++ ".json"

/-- The JSON body of the response: an error object holding only an error
key, the empty-match object holding a message and processed_messages = 0
(note: no failed count key), or the final summary object holding a
message, processed_messages and failed_messages.
-/
inductive RespBody : Type where
  | err : String → RespBody
  | noMessages : String → Nat → RespBody
  | summary : String → Nat → Nat → RespBody
  deriving DecidableEq

/-- The `processed_messages` field of a response body, when the key is
present in the JSON object. -/
def RespBody.processedField : RespBody → Option Nat
  | .err _ => none
  | .noMessages _ p => some p
  | .summary _ p _ => some p

/-- The `failed_messages` field of a response body, when the key is
present in the JSON object. -/
def RespBody.failedField : RespBody → Option Nat
  | .err _ => none
  | .noMessages _ _ => none
  | .summary _ _ f => some f

/-- The structured `{statusCode, body}` value returned by the handler. -/
structure HandlerResult where
  statusCode : Nat
  body : RespBody
  deriving DecidableEq

/-- An external call performed during the invocation: the credential
refresh, the (paginated) listing call with its query, a per-message fetch
with its id, or an S3 put with bucket, object key and uploaded record. -/
inductive CallEvent : Type where
  | authCall : CallEvent
  | listCall : String → CallEvent
  | fetchCall : String → CallEvent
  | putCall : String → String → ArchiveRecord → CallEvent
  deriving DecidableEq

/-- The summary string of the final response. -/
def summary_message (p f : Nat) : String :=
  "Processing complete. Processed: " ++ toString p ++ ", Failed: " ++
    toString f ++ "."

/-- The per-message loop of `lambda_handler` (lines 156-205): for each
summary, fetch the detail, extract the body, build the record and upload
it; any exception increments `failed_messages` and the loop continues with
the next id.  Accumulates (processed, failed, call trace). -/
def processMessages (decode : String → Option String) (oracle : Oracles)
    (bucket folder : String) :
    List MsgSummary → Nat → Nat → List CallEvent →
    Nat × Nat × List CallEvent
  | [], p, f, tr => (p, f, tr)
  | m :: rest, p, f, tr =>
    match oracle.fetch m.id with
    | .error _ => processMessages decode oracle bucket folder rest p (f + 1)
        (tr ++ [.fetchCall m.id])
    | .ok d =>
      match extract_body decode d.payload with
      | none => processMessages decode oracle bucket folder rest p (f + 1)
          (tr ++ [.fetchCall m.id])
      | some body =>
        let key := file_key folder m.id
        let record := email_data_to_store d body
        match oracle.put key with
        | .error _ => processMessages decode oracle bucket folder rest p
            (f + 1) (tr ++ [.fetchCall m.id, .putCall bucket key record])
        | .ok _ => processMessages decode oracle bucket folder rest (p + 1)
            f (tr ++ [.fetchCall m.id, .putCall bucket key record])

/-- Model of lambda_handler: validate the event fields, then the
auth environment variables; authenticate; list; if the match set is empty
return immediately; otherwise run the per-message loop and report the
summary.  Every exception of the guarded region becomes a 500 response
carrying `str(e)`.  Returns the response together with the trace of
external calls issued. -/
def lambda_handler (env : Env) (decode : String → Option String)
    (oracle : Oracles) (event : Event) : HandlerResult × List CallEvent :=
  if !truthy event.gmail_query then
    (⟨400, .err "gmail_query not provided in event"⟩, [])
  else if !truthy event.gmail_user_id_s3_folder then
    (⟨400, .err "gmail_user_id_s3_folder not provided in event"⟩, [])
  else if !(truthy env.refreshToken && truthy env.clientId &&
      truthy env.clientSecret) then
    (⟨500,
      .err "Lambda configuration error: Missing Gmail auth environment variables."⟩,
      [])
  else
    let q := event.gmail_query.getD ""
    let folder := event.gmail_user_id_s3_folder.getD ""
    match oracle.auth with
    | .error e => (⟨500, .err e⟩, [.authCall])
    | .ok _ =>
      match oracle.listing with
      | .error e => (⟨500, .err e⟩, [.authCall, .listCall q])
      | .ok msgs =>
        if msgs.isEmpty then
          (⟨200, .noMessages "No messages found matching the query." 0⟩,
            [.authCall, .listCall q])
        else
          let r := processMessages decode oracle env.s3Bucket folder msgs
            0 0 [.authCall, .listCall q]
          (⟨200, .summary (summary_message r.1 r.2.1) r.1 r.2.1⟩, r.2.2)

/-- Whether one message makes it all the way through fetch, extraction and
upload without an exception (it is then counted in `processed_messages`).
-/
def msgSucceeds (decode : String → Option String) (oracle : Oracles)
    (folder : String) (m : MsgSummary) : Bool :=
  match oracle.fetch m.id with
  | .error _ => false
  | .ok d =>
    match extract_body decode d.payload with
    | none => false
    | some _ =>
      match oracle.put (file_key folder m.id) with
      | .error _ => false
      | .ok _ => true

/-- Whether one message passes fetch and extraction, so that an S3 put is
attempted for it. -/
def reachesWrite (decode : String → Option String) (oracle : Oracles)
    (m : MsgSummary) : Bool :=
  match oracle.fetch m.id with
  | .error _ => false
  | .ok d => (extract_body decode d.payload).isSome

/-- The call-trace fragment contributed by one message of the loop. -/
def msgTrace (decode : String → Option String) (oracle : Oracles)
    (bucket folder : String) (m : MsgSummary) : List CallEvent :=
  match oracle.fetch m.id with
  | .error _ => [.fetchCall m.id]
  | .ok d =>
    match extract_body decode d.payload with
    | none => [.fetchCall m.id]
    | some body =>
      [.fetchCall m.id,
        .putCall bucket (file_key folder m.id) (email_data_to_store d body)]

/-- The object keys of the S3 put calls in a trace. -/
def writtenKeys (tr : List CallEvent) : List String :=
  tr.filterMap fun e =>
    match e with
    | .putCall _ key _ => some key
    | _ => none

/-- The message ids of the fetch calls in a trace. -/
def fetchedIds (tr : List CallEvent) : List String :=
  tr.filterMap fun e =>
    match e with
    | .fetchCall i => some i
    | _ => none

/-- A part with MIME type `text/plain` carrying a body blob (the winning
condition of the scan). -/
def plainWithData (p : Part) : Bool :=
  p.mimeType == "text/plain" && p.bodyData.isSome

/-- A part with MIME type `text/html` carrying a body blob (the fallback
condition of the scan). -/
def htmlWithData (p : Part) : Bool :=
  p.mimeType == "text/html" && p.bodyData.isSome

/-- Whether the body blob of the part (when present) decodes without an
exception. -/
def blobDecodes (decode : String → Option String) (p : Part) : Bool :=
  match p.bodyData with
  | none => true
  | some d => (decode d).isSome

/-- The decoded content of the first `text/plain` part carrying a body
blob — the value the specification says the extractor must produce for a
multipart payload containing such a part. -/
def firstPlainDecoded (decode : String → Option String)
    (ps : List Part) : Option String :=
  (ps.find? plainWithData).bind fun p => p.bodyData.bind decode

/-- The body blob of the first `text/html` part carrying one. -/
def firstHtmlBlob (ps : List Part) : Option String :=
  (ps.find? htmlWithData).bind Part.bodyData

/-- A `text/html` part whose body blob decodes to a non-empty string:
because the code guards the fallback with Python truthiness of
`body_data`, these are the parts whose decode actually survives. -/
def htmlNonempty (decode : String → Option String) (p : Part) : Bool :=
  p.mimeType == "text/html" &&
    (match p.bodyData with
     | some d =>
       match decode d with
       | some s => !s.isEmpty
       | none => false
     | none => false)

/-- Reference function for the amended HTML-fallback claim: the decoded
content of the first `text/html` part with a body blob that decodes to a
non-empty string, or the empty string when every such decode is empty. -/
def spec_html_fallback (decode : String → Option String)
    (ps : List Part) : String :=
  match ps.find? (htmlNonempty decode) with
  | some p =>
    match p.bodyData with
    | some d => (decode d).getD ""
    | none => ""
  | none => ""

/-! ### Concrete fixtures

A finite decode table consistent with URL-safe base64 followed by UTF-8
decoding, and small environments, oracles, payloads and pages used to
instantiate the theorems on concrete inputs. -/

/-- A concrete decoder agreeing with
URL-safe base64 decoding followed by UTF-8 decoding on its domain
(and raising, i.e. `none`, elsewhere). -/
def decodeEx : String → Option String := fun s =>
  if s = "" then some ""
  else if s = "eA==" then some "x"
  else if s = "aGk=" then some "hi"
  else if s = "cGxhaW4=" then some "plain"
  else if s = "aHRtbA==" then some "html"
  else none

/-- An environment with all auth variables present. -/
def envOk : Env := ⟨"bucket", "me", some "rt", some "cid", some "cs"⟩

/-- An environment with `REFRESH_TOKEN` unset. -/
def envNoAuth : Env := ⟨"bucket", "me", none, some "cid", some "cs"⟩

/-- An oracle on which every external call fails; used to show that some
paths never reach any call. -/
def oracleInert : Oracles :=
  ⟨.error "auth failed", .error "list failed",
   fun _ => .error "fetch failed", fun _ => .error "put failed"⟩

/-- An oracle whose credential refresh fails. -/
def oracleAuthFail : Oracles :=
  ⟨.error "Failed to refresh Gmail token. Check REFRESH_TOKEN and credentials.",
   .ok [], fun _ => .error "fetch failed", fun _ => .error "put failed"⟩

/-- An oracle that authenticates but returns an empty match set. -/
def oracleEmptyList : Oracles :=
  ⟨.ok (), .ok [], fun _ => .error "fetch failed", fun _ => .error "put failed"⟩

/-- An event with no `gmail_query` key. -/
def eventNoQuery : Event := ⟨none, some "folder"⟩

/-- A well-formed event. -/
def eventOk : Event := ⟨some "q", some "folder"⟩

/-- A fetched detail with no payload (its extracted body is `""`). -/
def detailNoPayload (i : String) : MessageDetail :=
  ⟨some i, none, none, none, none, none, none, none⟩

/-- Three listed summaries. -/
def msgsEx : List MsgSummary := [⟨"m1", "t1"⟩, ⟨"m2", "t2"⟩, ⟨"m3", "t3"⟩]

/-- The batch oracle of the isolation scenario: lists `msgsEx`, the fetch
of the second message raises, everything else succeeds. -/
def oracleBatch : Oracles :=
  ⟨.ok (), .ok msgsEx,
   fun i => if i = "m2" then .error "fetch failed" else .ok (detailNoPayload i),
   fun _ => .ok ()⟩

/-- A plain-text part whose blob decodes to `"plain"`. -/
def plainPartEx : Part := .mk "text/plain" (some "cGxhaW4=") []

/-- An HTML part whose blob decodes to `"html"`. -/
def htmlPartEx : Part := .mk "text/html" (some "aHRtbA==") []

/-- An HTML part whose blob decodes to the empty string. -/
def htmlEmptyPart : Part := .mk "text/html" (some "") []

/-- An HTML part whose blob decodes to `"x"`. -/
def htmlXPart : Part := .mk "text/html" (some "eA==") []

/-- A multipart sub-part hiding a plain-text part one level down. -/
def nestedPart : Part :=
  .mk "multipart/alternative" none [.mk "text/plain" (some "aGk=") []]

/-- A multipart payload listing the HTML part before the plain part. -/
def payloadHtmlFirst : Payload := ⟨some [htmlPartEx, plainPartEx], none, none⟩

/-- A multipart payload with two HTML parts, the first decoding empty. -/
def payloadTwoHtml : Payload := ⟨some [htmlEmptyPart, htmlXPart], none, none⟩

/-- A payload whose only text parts are nested below the top level. -/
def payloadNested : Payload := ⟨some [nestedPart], none, none⟩

/-- First listing page: two summaries and a continuation cursor. -/
def page1 : ListResponse := ⟨some [⟨"m1", "t1"⟩, ⟨"m2", "t2"⟩], some "tok1"⟩

/-- Last listing page: one summary, no cursor. -/
def page2 : ListResponse := ⟨some [⟨"m3", "t3"⟩], none⟩

/-- A fetched detail whose payload hides its text parts below the top
level. -/
def detailNested : MessageDetail :=
  ⟨some "m9", none, none, none, none, none, none, some payloadNested⟩

/-- An oracle fetching `detailNested` for every id. -/
def oracleNested : Oracles :=
  ⟨.ok (), .ok [⟨"m9", "t9"⟩], fun _ => .ok detailNested, fun _ => .ok ()⟩

/-! ### Lemmas about the part scan -/

/-- While a plain-text part with a blob is present and every blob
decodes, the scan returns the decoded content of the first such part,
whatever `body_data` has been accumulated so far. -/
lemma scan_parts_plain (decode : String → Option String) :
    ∀ (ps : List Part) (acc : String),
      ps.any plainWithData = true →
      ps.all (blobDecodes decode) = true →
      scan_parts decode ps acc = firstPlainDecoded decode ps := by
  intro ps
  induction ps with
  | nil => intro acc h _; simp at h
  | cons p rest ih =>
    intro acc hany hall
    obtain ⟨m, b, sub⟩ := p
    rw [List.all_cons, Bool.and_eq_true] at hall
    obtain ⟨hdp, hdrest⟩ := hall
    cases b with
    | none =>
      have hpw : plainWithData (Part.mk m none sub) = false := by
        simp [plainWithData, Part.bodyData]
      rw [List.any_cons, hpw, Bool.false_or] at hany
      simp only [scan_parts, Part.bodyData]
      rw [ih acc hany hdrest]
      simp [firstPlainDecoded, List.find?, hpw]
    | some d =>
      by_cases hm : m = "text/plain"
      · subst hm
        simp only [scan_parts, Part.bodyData, Part.mimeType]
        simp [firstPlainDecoded, List.find?, plainWithData, Part.mimeType,
          Part.bodyData]
      · have hpw : plainWithData (Part.mk m (some d) sub) = false := by
          simp [plainWithData, Part.bodyData, Part.mimeType, hm]
        rw [List.any_cons, hpw, Bool.false_or] at hany
        have hR : firstPlainDecoded decode (Part.mk m (some d) sub :: rest) =
            firstPlainDecoded decode rest := by
          simp [firstPlainDecoded, List.find?, hpw]
        rw [hR]
        by_cases hh : m = "text/html"
        · by_cases hacc : acc = ""
          · have hdp2 : (decode d).isSome = true := by
              simpa [blobDecodes, Part.bodyData] using hdp
            obtain ⟨s, hs⟩ := Option.isSome_iff_exists.mp hdp2
            simp only [scan_parts, Part.bodyData, Part.mimeType]
            simp [hm, hh, hacc, hs]
            exact ih s hany hdrest
          · simp only [scan_parts, Part.bodyData, Part.mimeType]
            simp [hm, hh, hacc]
            exact ih acc hany hdrest
        · simp only [scan_parts, Part.bodyData, Part.mimeType]
          simp [hm, hh]
          exact ih acc hany hdrest

/-- Once `body_data` is a non-empty string and no plain-text part with a
blob remains, the scan changes nothing: the html branch is guarded by
`not body_data`. -/
lemma scan_parts_stop (decode : String → Option String) :
    ∀ (ps : List Part) (acc : String), acc ≠ "" →
      ps.all (fun p => !plainWithData p) = true →
      scan_parts decode ps acc = some acc := by
  intro ps
  induction ps with
  | nil => intro acc _ _; simp [scan_parts]
  | cons p rest ih =>
    intro acc hacc hall
    obtain ⟨m, b, sub⟩ := p
    rw [List.all_cons, Bool.and_eq_true] at hall
    obtain ⟨hp, hrest⟩ := hall
    cases b with
    | none =>
      simp only [scan_parts, Part.bodyData]
      exact ih acc hacc hrest
    | some d =>
      have hm : ¬m = "text/plain" := by
        intro hm
        simp [plainWithData, Part.mimeType, Part.bodyData, hm] at hp
      simp only [scan_parts, Part.bodyData, Part.mimeType]
      simp [hm, hacc]
      exact ih acc hacc hrest

/-- When no top-level part is a plain-text or html part carrying a blob,
the scan leaves `body_data` untouched. -/
lemma scan_parts_skip (decode : String → Option String) :
    ∀ (ps : List Part) (acc : String),
      ps.all (fun p => !plainWithData p && !htmlWithData p) = true →
      scan_parts decode ps acc = some acc := by
  intro ps
  induction ps with
  | nil => intro acc _; simp [scan_parts]
  | cons p rest ih =>
    intro acc hall
    obtain ⟨m, b, sub⟩ := p
    rw [List.all_cons, Bool.and_eq_true] at hall
    obtain ⟨hp, hrest⟩ := hall
    rw [Bool.and_eq_true] at hp
    obtain ⟨hpl, hht⟩ := hp
    cases b with
    | none =>
      simp only [scan_parts, Part.bodyData]
      exact ih acc hrest
    | some d =>
      have hm : ¬m = "text/plain" := by
        intro hm
        simp [plainWithData, Part.mimeType, Part.bodyData, hm] at hpl
      have hh : ¬m = "text/html" := by
        intro hh
        simp [htmlWithData, Part.mimeType, Part.bodyData, hh] at hht
      simp only [scan_parts, Part.bodyData, Part.mimeType]
      simp [hm, hh]
      exact ih acc hrest

/-- With no plain-text candidate and every blob decoding, the scan
starting from the empty `body_data` implements the amended fallback: the
first html part whose blob decodes non-empty wins, empty decodes are
overwritten. -/
lemma scan_parts_html (decode : String → Option String) :
    ∀ ps : List Part,
      ps.all (fun p => !plainWithData p) = true →
      ps.all (blobDecodes decode) = true →
      scan_parts decode ps "" = some (spec_html_fallback decode ps) := by
  intro ps
  induction ps with
  | nil => simp [scan_parts, spec_html_fallback]
  | cons p rest ih =>
    intro hplain hdec
    rw [List.all_cons, Bool.and_eq_true] at hplain hdec
    obtain ⟨hp, hprest⟩ := hplain
    obtain ⟨hd, hdrest⟩ := hdec
    obtain ⟨m, b, sub⟩ := p
    cases b with
    | none =>
      have hne : htmlNonempty decode (Part.mk m none sub) = false := by
        simp [htmlNonempty, Part.bodyData]
      simp only [scan_parts, Part.bodyData]
      rw [ih hprest hdrest]
      simp [spec_html_fallback, List.find?, hne]
    | some d =>
      have hm : ¬m = "text/plain" := by
        intro hm
        simp [plainWithData, Part.mimeType, Part.bodyData, hm] at hp
      by_cases hh : m = "text/html"
      · subst hh
        have hd2 : (decode d).isSome = true := by
          simpa [blobDecodes, Part.bodyData] using hd
        obtain ⟨s, hs⟩ := Option.isSome_iff_exists.mp hd2
        by_cases hse : s = ""
        · subst hse
          have hne : htmlNonempty decode
              (Part.mk "text/html" (some d) sub) = false := by
            simp [htmlNonempty, Part.bodyData, Part.mimeType, hs]
            decide
          simp only [scan_parts, Part.bodyData, Part.mimeType]
          simp [hm, hs]
          rw [ih hprest hdrest]
          simp [spec_html_fallback, List.find?, hne]
        · have hne : htmlNonempty decode
              (Part.mk "text/html" (some d) sub) = true := by
            simp [htmlNonempty, Part.bodyData, Part.mimeType, hs,
              Bool.eq_false_iff, String.isEmpty_iff, hse]
          simp only [scan_parts, Part.bodyData, Part.mimeType]
          simp [hm, hs]
          rw [scan_parts_stop decode rest s hse hprest]
          simp [spec_html_fallback, List.find?, hne, Part.bodyData, hs]
      · have hne : htmlNonempty decode (Part.mk m (some d) sub) = false := by
          simp [htmlNonempty, Part.mimeType, hh]
        simp only [scan_parts, Part.bodyData, Part.mimeType]
        simp [hm, hh]
        rw [ih hprest hdrest]
        simp [spec_html_fallback, List.find?, hne]

/-! ### Lemmas about pagination and the per-message loop -/

/-- A response without a continuation cursor ends the pagination loop. -/
lemma listPages_last (cur : ListResponse) (h : cur.nextPageToken = none)
    (rest : List ListResponse) (accM : List MsgSummary)
    (accC : List (Option String)) :
    listPages cur rest accM accC = some (accM ++ cur.messages.getD [], accC) := by
  simp [listPages, h]

/-- A response carrying a cursor triggers exactly one further call, with
that cursor, after accumulating its page. -/
lemma listPages_step (cur : ListResponse) (t : String)
    (h : cur.nextPageToken = some t) (r : ListResponse)
    (rest : List ListResponse) (accM : List MsgSummary)
    (accC : List (Option String)) :
    listPages cur (r :: rest) accM accC =
      listPages r rest (accM ++ cur.messages.getD []) (accC ++ [some t]) := by
  rw [listPages]
  simp only [h]

/-- Running the loop down a chain whose every response except the final
one carries a cursor: all pages are accumulated in order and one further
call is issued per cursor. -/
lemma listPages_chain (last : ListResponse) (hlast : last.nextPageToken = none) :
    ∀ (ts : List ListResponse) (cur : ListResponse),
      (cur :: ts).all (fun r => r.nextPageToken.isSome) = true →
      ∀ (accM : List MsgSummary) (accC : List (Option String)),
        listPages cur (ts ++ [last]) accM accC =
          some (accM ++ cur.messages.getD [] ++
              ((ts ++ [last]).map (fun r => r.messages.getD [])).flatten,
            accC ++ (cur :: ts).map (fun r => r.nextPageToken)) := by
  intro ts
  induction ts with
  | nil =>
    intro cur hall accM accC
    have hcur : cur.nextPageToken.isSome = true := by simpa using hall
    obtain ⟨t, ht⟩ := Option.isSome_iff_exists.mp hcur
    rw [List.nil_append, listPages_step cur t ht last [],
      listPages_last last hlast]
    simp [List.append_assoc, ht]
  | cons b bs ih =>
    intro cur hall accM accC
    rw [List.all_cons, Bool.and_eq_true] at hall
    obtain ⟨hcur, hrest⟩ := hall
    obtain ⟨t, ht⟩ := Option.isSome_iff_exists.mp hcur
    rw [List.cons_append, listPages_step cur t ht b (bs ++ [last]),
      ih b hrest (accM ++ cur.messages.getD []) (accC ++ [some t])]
    simp [List.append_assoc, ht]

/-- One step of the per-message loop, fully characterised: the final
counters add the numbers of succeeding and failing messages and the trace
extends by the fragment of each message, in listing order. -/
lemma processMessages_run (decode : String → Option String)
    (oracle : Oracles) (bucket folder : String) :
    ∀ (msgs : List MsgSummary) (p f : Nat) (tr : List CallEvent),
      processMessages decode oracle bucket folder msgs p f tr =
        (p + msgs.countP (msgSucceeds decode oracle folder),
         f + msgs.countP (fun m => !msgSucceeds decode oracle folder m),
         tr ++ (msgs.map (msgTrace decode oracle bucket folder)).flatten) := by
  intro msgs
  induction msgs with
  | nil => intro p f tr; simp [processMessages]
  | cons m rest ih =>
    intro p f tr
    cases hf : oracle.fetch m.id with
    | error e =>
      have hsucc : msgSucceeds decode oracle folder m = false := by
        simp [msgSucceeds, hf]
      have htr : msgTrace decode oracle bucket folder m =
          [.fetchCall m.id] := by
        simp [msgTrace, hf]
      simp only [processMessages, hf]
      rw [ih]
      simp [Prod.ext_iff, List.countP_cons, hsucc, htr, List.append_assoc]
      omega
    | ok d =>
      cases he : extract_body decode d.payload with
      | none =>
        have hsucc : msgSucceeds decode oracle folder m = false := by
          simp [msgSucceeds, hf, he]
        have htr : msgTrace decode oracle bucket folder m =
            [.fetchCall m.id] := by
          simp [msgTrace, hf, he]
        simp only [processMessages, hf, he]
        rw [ih]
        simp [Prod.ext_iff, List.countP_cons, hsucc, htr, List.append_assoc]
        omega
      | some body =>
        have htr : msgTrace decode oracle bucket folder m =
            [.fetchCall m.id,
              .putCall bucket (file_key folder m.id)
                (email_data_to_store d body)] := by
          simp [msgTrace, hf, he]
        cases hp : oracle.put (file_key folder m.id) with
        | error e =>
          have hsucc : msgSucceeds decode oracle folder m = false := by
            simp [msgSucceeds, hf, he, hp]
          simp only [processMessages, hf, he, hp]
          rw [ih]
          simp [Prod.ext_iff, List.countP_cons, hsucc, htr, List.append_assoc]
          omega
        | ok u =>
          have hsucc : msgSucceeds decode oracle folder m = true := by
            simp [msgSucceeds, hf, he, hp]
          simp only [processMessages, hf, he, hp]
          rw [ih]
          simp [Prod.ext_iff, List.countP_cons, hsucc, htr, List.append_assoc]
          omega

/-- The function `writtenKeys` distributes over trace concatenation. -/
lemma writtenKeys_append (t1 t2 : List CallEvent) :
    writtenKeys (t1 ++ t2) = writtenKeys t1 ++ writtenKeys t2 := by
  simp [writtenKeys]

/-- The function `fetchedIds` distributes over trace concatenation. -/
lemma fetchedIds_append (t1 t2 : List CallEvent) :
    fetchedIds (t1 ++ t2) = fetchedIds t1 ++ fetchedIds t2 := by
  simp [fetchedIds]

/-- The put calls of a batch trace are exactly the keys of the messages
that pass fetch and extraction, in listing order. -/
lemma writtenKeys_batch (decode : String → Option String) (oracle : Oracles)
    (bucket folder : String) :
    ∀ msgs : List MsgSummary,
      writtenKeys ((msgs.map (msgTrace decode oracle bucket folder)).flatten) =
        (msgs.filter (reachesWrite decode oracle)).map
          (fun m => file_key folder m.id) := by
  intro msgs
  induction msgs with
  | nil => simp [writtenKeys]
  | cons m rest ih =>
    rw [List.map_cons, List.flatten_cons, writtenKeys_append, ih]
    cases hf : oracle.fetch m.id with
    | error e =>
      have hr : reachesWrite decode oracle m = false := by
        simp [reachesWrite, hf]
      simp [msgTrace, hf, writtenKeys, List.filter_cons, hr]
    | ok d =>
      cases he : extract_body decode d.payload with
      | none =>
        have hr : reachesWrite decode oracle m = false := by
          simp [reachesWrite, hf, he]
        simp [msgTrace, hf, he, writtenKeys, List.filter_cons, hr]
      | some body =>
        have hr : reachesWrite decode oracle m = true := by
          simp [reachesWrite, hf, he]
        simp [msgTrace, hf, he, writtenKeys, List.filter_cons, hr]

/-- The fetch calls of a batch trace are exactly the listed ids, in
listing order: the loop continues past failures. -/
lemma fetchedIds_batch (decode : String → Option String) (oracle : Oracles)
    (bucket folder : String) :
    ∀ msgs : List MsgSummary,
      fetchedIds ((msgs.map (msgTrace decode oracle bucket folder)).flatten) =
        msgs.map (fun m => m.id) := by
  intro msgs
  induction msgs with
  | nil => simp [fetchedIds]
  | cons m rest ih =>
    rw [List.map_cons, List.flatten_cons, fetchedIds_append, ih]
    cases hf : oracle.fetch m.id with
    | error e => simp [msgTrace, hf, fetchedIds]
    | ok d =>
      cases he : extract_body decode d.payload with
      | none => simp [msgTrace, hf, he, fetchedIds]
      | some body => simp [msgTrace, hf, he, fetchedIds]

/-! ### The claims -/

/-- C3: Plain text always wins.  For every multipart payload containing
both a text/plain part with a present body blob and a text/html part with
a present body blob, in either order (with every present blob decoding,
as presupposed by the claim speaking of decoded part content), the
extracted body equals the decoded content of the first text/plain part
with a body blob, regardless of the relative part positions. -/
theorem claim3_plain_text_wins (decode : String → Option String)
    (pl : Payload) (ps : List Part)
    (hparts : pl.parts = some ps)
    (hplain : ps.any plainWithData = true)
    (_hhtml : ps.any htmlWithData = true)
    (hdec : ps.all (blobDecodes decode) = true) :
    extract_body decode (some pl) = firstPlainDecoded decode ps := by
  simp only [extract_body, hparts]
  exact scan_parts_plain decode ps "" hplain hdec

/-- Witness for C3: the html part precedes the plain part, yet the
extracted body is the decoded content of the plain part. -/
theorem claim3_witness :
    payloadHtmlFirst.parts = some [htmlPartEx, plainPartEx] ∧
    [htmlPartEx, plainPartEx].any plainWithData = true ∧
    [htmlPartEx, plainPartEx].any htmlWithData = true ∧
    [htmlPartEx, plainPartEx].all (blobDecodes decodeEx) = true ∧
    extract_body decodeEx (some payloadHtmlFirst) = some "plain" := by
  have h := claim3_plain_text_wins decodeEx payloadHtmlFirst
    [htmlPartEx, plainPartEx] rfl (by decide) (by decide) (by decide)
  exact ⟨rfl, by decide, by decide, by decide, h.trans (by decide)⟩

/-- C4 counterexample: the first text/html part with a present body blob
decodes to the empty string, so the `not body_data` truthiness guard lets
the second html part overwrite it: the extracted body is not the decoded
content of the first html part with a body blob. -/
theorem claim4_counterexample :
    payloadTwoHtml.parts = some [htmlEmptyPart, htmlXPart] ∧
    firstHtmlBlob [htmlEmptyPart, htmlXPart] = some "" ∧
    decodeEx "" = some "" ∧
    extract_body decodeEx (some payloadTwoHtml) = some "x" ∧
    ¬extract_body decodeEx (some payloadTwoHtml) = some "" := by
  refine ⟨rfl, by decide, rfl, by decide, by decide⟩

/-- C4 (amended): for every multipart payload with no text/plain part
carrying a body blob, at least one text/html part carrying one, and every
present blob decoding, the extracted body equals the decoded content of
the first text/html part with a present body blob whose decoded content
is non-empty (decoded, not stripped of markup); if every such decode is
empty the body is the empty string. -/
theorem claim4_amended_html_fallback (decode : String → Option String)
    (pl : Payload) (ps : List Part)
    (hparts : pl.parts = some ps)
    (hnoplain : ps.all (fun p => !plainWithData p) = true)
    (_hhtml : ps.any htmlWithData = true)
    (hdec : ps.all (blobDecodes decode) = true) :
    extract_body decode (some pl) = some (spec_html_fallback decode ps) := by
  simp only [extract_body, hparts]
  exact scan_parts_html decode ps hnoplain hdec

/-- Witness for the amended C4: on the two-html-part payload the
fallback result is the content of the second part, as the amended policy
says. -/
theorem claim4_witness :
    [htmlEmptyPart, htmlXPart].all (fun p => !plainWithData p) = true ∧
    spec_html_fallback decodeEx [htmlEmptyPart, htmlXPart] = "x" ∧
    extract_body decodeEx (some payloadTwoHtml) = some "x" := by
  have h := claim4_amended_html_fallback decodeEx payloadTwoHtml
    [htmlEmptyPart, htmlXPart] rfl (by decide) (by decide) (by decide)
  exact ⟨by decide, by decide, h.trans (by decide)⟩

/-- C10: Top-level-only part scan.  For every fetched message whose
payload has a top-level parts list with no text/plain or text/html part
carrying a body blob — whatever is nested inside the sub-parts — the
extracted body is the empty string and the archive record stored for the
message carries decoded body `""`; the scan never recurses. -/
theorem claim10_top_level_only (decode : String → Option String)
    (oracle : Oracles) (bucket folder : String) (m : MsgSummary)
    (d : MessageDetail) (pl : Payload) (ps : List Part)
    (hfetch : oracle.fetch m.id = .ok d)
    (hpayload : d.payload = some pl)
    (hparts : pl.parts = some ps)
    (hnone : ps.all (fun p => !plainWithData p && !htmlWithData p) = true) :
    extract_body decode d.payload = some "" ∧
    msgTrace decode oracle bucket folder m =
      [.fetchCall m.id,
        .putCall bucket (file_key folder m.id) (email_data_to_store d "")] := by
  have hx : extract_body decode d.payload = some "" := by
    rw [hpayload]
    simp only [extract_body, hparts]
    exact scan_parts_skip decode ps "" hnone
  exact ⟨hx, by simp [msgTrace, hfetch, hx]⟩

/-- Witness for C10: a text/plain part nested one level down is ignored
and the stored decoded body is empty. -/
theorem claim10_witness :
    [nestedPart].all (fun p => !plainWithData p && !htmlWithData p) = true ∧
    nestedPart.subparts = [Part.mk "text/plain" (some "aGk=") []] ∧
    decodeEx "aGk=" = some "hi" ∧
    extract_body decodeEx detailNested.payload = some "" ∧
    msgTrace decodeEx oracleNested "bucket" "folder" ⟨"m9", "t9"⟩ =
      [.fetchCall "m9",
        .putCall "bucket" (file_key "folder" "m9")
          (email_data_to_store detailNested "")] := by
  obtain ⟨h1, h2⟩ := claim10_top_level_only decodeEx oracleNested "bucket"
    "folder" ⟨"m9", "t9"⟩ detailNested payloadNested [nestedPart]
    rfl rfl rfl (by decide)
  exact ⟨by decide, rfl, rfl, h1, h2⟩

/-- Counting the messages that succeed and those that do not partitions
the batch. -/
lemma countP_not_add {α : Type} (p : α → Bool) :
    ∀ l : List α, l.countP p + l.countP (fun a => !p a) = l.length := by
  intro l
  induction l with
  | nil => simp
  | cons a t ih =>
    cases h : p a <;> simp [List.countP_cons, h] <;> omega

/-- C5: Pagination exhaustion and order.  For every response chain in
which each response before the last carries a continuation cursor and the
last does not, `list_messages` issues the first call without a cursor and
one further call per returned cursor, and returns the concatenation of
the summaries of all pages in page order. -/
theorem claim5_pagination (init : List ListResponse) (last : ListResponse)
    (hinit : init.all (fun r => r.nextPageToken.isSome) = true)
    (hlast : last.nextPageToken = none) :
    list_messages (init ++ [last]) =
      some (((init ++ [last]).map (fun r => r.messages.getD [])).flatten,
        none :: init.map (fun r => r.nextPageToken)) := by
  cases init with
  | nil =>
    simp only [List.nil_append, list_messages]
    rw [listPages_last last hlast]
    simp
  | cons a as =>
    simp only [List.cons_append, list_messages]
    rw [listPages_chain last hlast as a hinit [] [none]]
    simp [List.append_assoc]

/-- Witness for C5: two pages joined by one cursor; all three summaries
come back in page order and the second call carried the cursor. -/
theorem claim5_witness :
    [page1].all (fun r => r.nextPageToken.isSome) = true ∧
    page2.nextPageToken = none ∧
    list_messages [page1, page2] =
      some ([⟨"m1", "t1"⟩, ⟨"m2", "t2"⟩, ⟨"m3", "t3"⟩],
        [none, some "tok1"]) := by
  have h := claim5_pagination [page1] page2 (by decide) rfl
  exact ⟨by decide, rfl, h.trans (by decide)⟩

/-- C1: Per-message failure isolation.  On a valid invocation with auth
and listing succeeding on a non-empty batch, the handler returns 200;
the processed count is the number of messages passing fetch, extraction
and upload, the failed count is the number failing at some stage (the two
partition the batch, so each failure adds exactly one); every listed id
is fetched in listing order, and an archive put is issued exactly for the
messages that pass fetch and extraction, in listing order. -/
theorem claim1_per_message_isolation (env : Env)
    (decode : String → Option String) (oracle : Oracles) (q fol : String)
    (msgs : List MsgSummary)
    (hq : q.isEmpty = false) (hfol : fol.isEmpty = false)
    (henv : (truthy env.refreshToken && truthy env.clientId &&
      truthy env.clientSecret) = true)
    (hauth : oracle.auth = .ok ())
    (hlist : oracle.listing = .ok msgs)
    (hne : msgs.isEmpty = false) :
    (lambda_handler env decode oracle ⟨some q, some fol⟩).1.statusCode = 200 ∧
    (lambda_handler env decode oracle ⟨some q, some fol⟩).1.body =
      .summary
        (summary_message (msgs.countP (msgSucceeds decode oracle fol))
          (msgs.countP (fun m => !msgSucceeds decode oracle fol m)))
        (msgs.countP (msgSucceeds decode oracle fol))
        (msgs.countP (fun m => !msgSucceeds decode oracle fol m)) ∧
    msgs.countP (msgSucceeds decode oracle fol) +
      msgs.countP (fun m => !msgSucceeds decode oracle fol m) = msgs.length ∧
    fetchedIds (lambda_handler env decode oracle ⟨some q, some fol⟩).2 =
      msgs.map (fun m => m.id) ∧
    writtenKeys (lambda_handler env decode oracle ⟨some q, some fol⟩).2 =
      (msgs.filter (reachesWrite decode oracle)).map
        (fun m => file_key fol m.id) := by
  have hrun : lambda_handler env decode oracle ⟨some q, some fol⟩ =
      (⟨200, .summary
          (summary_message (msgs.countP (msgSucceeds decode oracle fol))
            (msgs.countP (fun m => !msgSucceeds decode oracle fol m)))
          (msgs.countP (msgSucceeds decode oracle fol))
          (msgs.countP (fun m => !msgSucceeds decode oracle fol m))⟩,
        .authCall :: .listCall q ::
          (msgs.map (msgTrace decode oracle env.s3Bucket fol)).flatten) := by
    have ht1 : truthy (some q) = true := by simp [truthy, hq]
    have ht2 : truthy (some fol) = true := by simp [truthy, hfol]
    simp [lambda_handler, ht1, ht2, henv, hauth, hlist, hne,
      processMessages_run]
  refine ⟨by rw [hrun], by rw [hrun], countP_not_add _ msgs, ?_, ?_⟩
  · rw [hrun]
    show fetchedIds ([.authCall, .listCall q] ++ _) = _
    rw [fetchedIds_append, fetchedIds_batch]
    rfl
  · rw [hrun]
    show writtenKeys ([.authCall, .listCall q] ++ _) = _
    rw [writtenKeys_append, writtenKeys_batch]
    rfl

/-- Witness for C1: three listed messages, the fetch of the second
raises; the result is 200 with processed=2, failed=1, archive puts only
for messages 1 and 3, and all three ids fetched in order. -/
theorem claim1_witness :
    oracleBatch.fetch "m2" = .error "fetch failed" ∧
    (lambda_handler envOk decodeEx oracleBatch eventOk).1.statusCode = 200 ∧
    (lambda_handler envOk decodeEx oracleBatch eventOk).1.body.processedField
      = some 2 ∧
    (lambda_handler envOk decodeEx oracleBatch eventOk).1.body.failedField
      = some 1 ∧
    writtenKeys (lambda_handler envOk decodeEx oracleBatch eventOk).2 =
      ["gmail/folder/message_m1.json", "gmail/folder/message_m3.json"] ∧
    fetchedIds (lambda_handler envOk decodeEx oracleBatch eventOk).2 =
      ["m1", "m2", "m3"] := by
  rw [show eventOk = (⟨some "q", some "folder"⟩ : Event) from rfl]
  obtain ⟨h200, hbody, hsum, hfetch, hwrite⟩ :=
    claim1_per_message_isolation envOk decodeEx oracleBatch "q" "folder"
      msgsEx rfl rfl (by decide) rfl rfl rfl
  refine ⟨rfl, h200, ?_, ?_, ?_, ?_⟩
  · rw [hbody]; decide
  · rw [hbody]; decide
  · rw [hwrite]; decide
  · rw [hfetch]; decide

/-- C2: Fail-fast before the loop.  On a valid invocation, if the
credential refresh raises, or it succeeds and the listing call raises,
the handler returns 500 carrying the error and no fetch and no archive
put occurs: zero messages are processed. -/
theorem claim2_fail_fast (env : Env) (decode : String → Option String)
    (oracle : Oracles) (q fol e : String)
    (hq : q.isEmpty = false) (hfol : fol.isEmpty = false)
    (henv : (truthy env.refreshToken && truthy env.clientId &&
      truthy env.clientSecret) = true)
    (hfail : oracle.auth = .error e ∨
      (oracle.auth = .ok () ∧ oracle.listing = .error e)) :
    (lambda_handler env decode oracle ⟨some q, some fol⟩).1 =
      ⟨500, .err e⟩ ∧
    fetchedIds (lambda_handler env decode oracle ⟨some q, some fol⟩).2 = [] ∧
    writtenKeys (lambda_handler env decode oracle ⟨some q, some fol⟩).2 = [] := by
  rcases hfail with hauth | ⟨hauth, hlist⟩
  · have hrun : lambda_handler env decode oracle ⟨some q, some fol⟩ =
        (⟨500, .err e⟩, [.authCall]) := by
      have ht1 : truthy (some q) = true := by simp [truthy, hq]
      have ht2 : truthy (some fol) = true := by simp [truthy, hfol]
      simp [lambda_handler, ht1, ht2, henv, hauth]
    rw [hrun]
    exact ⟨rfl, rfl, rfl⟩
  · have hrun : lambda_handler env decode oracle ⟨some q, some fol⟩ =
        (⟨500, .err e⟩, [.authCall, .listCall q]) := by
      have ht1 : truthy (some q) = true := by simp [truthy, hq]
      have ht2 : truthy (some fol) = true := by simp [truthy, hfol]
      simp [lambda_handler, ht1, ht2, henv, hauth, hlist]
    rw [hrun]
    exact ⟨rfl, rfl, rfl⟩

/-- Witness for C2: a failing refresh yields 500 and an empty fetch/put
trace. -/
theorem claim2_witness :
    oracleAuthFail.auth = .error
      "Failed to refresh Gmail token. Check REFRESH_TOKEN and credentials." ∧
    (lambda_handler envOk decodeEx oracleAuthFail eventOk).1 =
      ⟨500, .err
        "Failed to refresh Gmail token. Check REFRESH_TOKEN and credentials."⟩ ∧
    fetchedIds (lambda_handler envOk decodeEx oracleAuthFail eventOk).2 = [] ∧
    writtenKeys (lambda_handler envOk decodeEx oracleAuthFail eventOk).2 = [] := by
  obtain ⟨ha, hb, hc⟩ := claim2_fail_fast envOk decodeEx oracleAuthFail
    "q" "folder"
    "Failed to refresh Gmail token. Check REFRESH_TOKEN and credentials."
    rfl rfl (by decide) (Or.inl rfl)
  exact ⟨rfl, ha, hb, hc⟩

/-- C6 counterexample: a request missing the query is rejected with 400
by the event validation even when the refresh token is absent, so "for
every request, missing auth configuration yields 500" fails as stated:
the event checks run first. -/
theorem claim6_counterexample :
    envNoAuth.refreshToken = none ∧
    (lambda_handler envNoAuth decodeEx oracleInert eventNoQuery).1.statusCode
      = 400 ∧
    ¬(lambda_handler envNoAuth decodeEx oracleInert eventNoQuery).1.statusCode
      = 500 := by
  refine ⟨rfl, by decide, by decide⟩

/-- C6 (amended): for every request carrying a non-empty query and folder
identifier, when any of refresh_token, client_id or client_secret is
absent (falsy), the result is 500 with the configuration-error body and
the call trace is empty: no API call of any kind is attempted. -/
theorem claim6_amended_config_error (env : Env)
    (decode : String → Option String) (oracle : Oracles) (q fol : String)
    (hq : q.isEmpty = false) (hfol : fol.isEmpty = false)
    (henv : (truthy env.refreshToken && truthy env.clientId &&
      truthy env.clientSecret) = false) :
    lambda_handler env decode oracle ⟨some q, some fol⟩ =
      (⟨500,
        .err "Lambda configuration error: Missing Gmail auth environment variables."⟩,
       []) := by
  have ht1 : truthy (some q) = true := by simp [truthy, hq]
  have ht2 : truthy (some fol) = true := by simp [truthy, hfol]
  simp [lambda_handler, ht1, ht2, henv]

/-- Witness for the amended C6: valid event, missing refresh token. -/
theorem claim6_witness :
    (truthy envNoAuth.refreshToken && truthy envNoAuth.clientId &&
      truthy envNoAuth.clientSecret) = false ∧
    lambda_handler envNoAuth decodeEx oracleInert eventOk =
      (⟨500,
        .err "Lambda configuration error: Missing Gmail auth environment variables."⟩,
       []) := by
  exact ⟨by decide, claim6_amended_config_error envNoAuth decodeEx
    oracleInert "q" "folder" rfl rfl (by decide)⟩

/-- C7 counterexample: on a valid request with an empty match set the
handler answers 200 with `processed_messages = 0`, but the empty-match
body carries no `failed_messages` key at all, so "the result has
failed=0" fails as stated. -/
theorem claim7_counterexample :
    oracleEmptyList.listing = .ok [] ∧
    (lambda_handler envOk decodeEx oracleEmptyList eventOk).1.statusCode
      = 200 ∧
    (lambda_handler envOk decodeEx oracleEmptyList eventOk).1.body.processedField
      = some 0 ∧
    (lambda_handler envOk decodeEx oracleEmptyList eventOk).1.body.failedField
      = none ∧
    ¬(lambda_handler envOk decodeEx oracleEmptyList eventOk).1.body.failedField
      = some 0 := by
  refine ⟨rfl, by decide, by decide, by decide, by decide⟩

/-- C7 (amended): for every valid request (non-empty query and folder,
auth configuration present, refresh succeeding) whose listing returns no
summaries, the result is 200 with the no-messages body reporting
processed=0 and omitting the failed count; only the auth and listing
calls were made. -/
theorem claim7_amended_empty_match (env : Env)
    (decode : String → Option String) (oracle : Oracles) (q fol : String)
    (hq : q.isEmpty = false) (hfol : fol.isEmpty = false)
    (henv : (truthy env.refreshToken && truthy env.clientId &&
      truthy env.clientSecret) = true)
    (hauth : oracle.auth = .ok ())
    (hlist : oracle.listing = .ok []) :
    lambda_handler env decode oracle ⟨some q, some fol⟩ =
      (⟨200, .noMessages "No messages found matching the query." 0⟩,
       [.authCall, .listCall q]) := by
  have ht1 : truthy (some q) = true := by simp [truthy, hq]
  have ht2 : truthy (some fol) = true := by simp [truthy, hfol]
  simp [lambda_handler, ht1, ht2, henv, hauth, hlist]

/-- Witness for the amended C7. -/
theorem claim7_witness :
    oracleEmptyList.listing = .ok [] ∧
    lambda_handler envOk decodeEx oracleEmptyList eventOk =
      (⟨200, .noMessages "No messages found matching the query." 0⟩,
       [.authCall, .listCall "q"]) := by
  exact ⟨rfl, claim7_amended_empty_match envOk decodeEx oracleEmptyList
    "q" "folder" rfl rfl (by decide) rfl rfl⟩

/-- C8: Client-error rejection.  For every request whose query or folder
identifier is absent or empty, the result is 400 and the call trace is
empty: no authentication, listing, fetch or write is attempted. -/
theorem claim8_client_error (env : Env) (decode : String → Option String)
    (oracle : Oracles) (event : Event)
    (h : truthy event.gmail_query = false ∨
      truthy event.gmail_user_id_s3_folder = false) :
    (lambda_handler env decode oracle event).1.statusCode = 400 ∧
    (lambda_handler env decode oracle event).2 = [] := by
  cases hq : truthy event.gmail_query with
  | false => simp [lambda_handler, hq]
  | true =>
    have hfol : truthy event.gmail_user_id_s3_folder = false := by
      rcases h with h | h
      · exact absurd (hq.symm.trans h) (by decide)
      · exact h
    simp [lambda_handler, hq, hfol]

/-- Witness for C8: a request without a query is rejected before any
call. -/
theorem claim8_witness :
    truthy eventNoQuery.gmail_query = false ∧
    (lambda_handler envOk decodeEx oracleInert eventNoQuery).1.statusCode
      = 400 ∧
    (lambda_handler envOk decodeEx oracleInert eventNoQuery).2 = [] := by
  obtain ⟨h1, h2⟩ := claim8_client_error envOk decodeEx oracleInert
    eventNoQuery (Or.inl rfl)
  exact ⟨rfl, h1, h2⟩

/-- C9: No raw unhandled fault.  For every environment, decoder, oracle
outcome and event, the handler returns a structured status/body pair (it
is a total function into `HandlerResult`) whose status code is 200, 400
or 500. -/
theorem claim9_structured_status (env : Env)
    (decode : String → Option String) (oracle : Oracles) (event : Event) :
    (lambda_handler env decode oracle event).1.statusCode = 200 ∨
    (lambda_handler env decode oracle event).1.statusCode = 400 ∨
    (lambda_handler env decode oracle event).1.statusCode = 500 := by
  cases h1 : truthy event.gmail_query with
  | false => simp [lambda_handler, h1]
  | true =>
    cases h2 : truthy event.gmail_user_id_s3_folder with
    | false => simp [lambda_handler, h1, h2]
    | true =>
      cases h3 : (truthy env.refreshToken && truthy env.clientId &&
          truthy env.clientSecret) with
      | false => simp [lambda_handler, h1, h2, h3]
      | true =>
        cases h4 : oracle.auth with
        | error e => simp [lambda_handler, h1, h2, h3, h4]
        | ok u =>
          cases h5 : oracle.listing with
          | error e => simp [lambda_handler, h1, h2, h3, h4, h5]
          | ok msgs =>
            cases h6 : msgs.isEmpty with
            | true => simp [lambda_handler, h1, h2, h3, h4, h5, h6]
            | false => simp [lambda_handler, h1, h2, h3, h4, h5, h6]

end GmailArchiver
